import Mathlib

/-!
Shallow embedding of `src/metadata-ingestion/src/datahub/ingestion/source/dbt.py`.

Modelling conventions:
- Python dicts become association lists in insertion order; `lookupD` is `d[k]`
  returning `none` for a missing key, `insertKV` is `d[k] = v`, and `dictMerge`
  is the double-star merge of two dicts (later operand wins on key collision).
- A raised `KeyError` becomes `Except.error`; a function that can raise returns
  `Except String _` and the error propagates like an uncaught exception.
- The mutable `SourceReport` warning sink becomes an explicitly threaded list of
  (dataset, message) pairs.
- `int(time.time())` becomes an explicit parameter `now : Int` holding the wall
  clock truncated to whole seconds at the moment of the call.
- The vendor tables `POSTGRES_TYPES_MAP`, `SNOWFLAKE_TYPES_MAP` and the
  function `resolve_postgres_modified_type` live in `dbt_types.py`, which is not
  among the sources at hand; they are taken as parameters `pg`, `sf`, `rmod`,
  so every statement below holds for all of their possible contents.
-/

namespace DbtIngest

/-- Dict lookup: the value of the first entry whose key matches, if any. -/
def lookupD {α : Type} : List (String × α) → String → Option α
  | [], _ => none
  | p :: ps, k => if p.1 = k then some p.2 else lookupD ps k

/-- Python dict update: overwrite in place when the key exists, append otherwise. -/
def insertKV {α : Type} (m : List (String × α)) (k : String) (v : α) : List (String × α) :=
  if m.any (fun p => decide (p.1 = k)) then
    m.map (fun p => if p.1 = k then (k, v) else p)
  else m ++ [(k, v)]

/-- Double-star merge of two dicts: start from `a`, update with every entry of `b`,
so on a shared key the entry of `b` (the later operand) wins. -/
def dictMerge {α : Type} (a b : List (String × α)) : List (String × α) :=
  b.foldl (fun acc p => insertKV acc p.1 p.2) a

/-- One raw column object of a catalog entry. -/
structure RawColumn where
  name : String
  comment : String
  type : String
  index : Int
deriving DecidableEq

/-- One entry of the catalog document: its reported metadata type and its ordered
columns mapping. -/
structure CatalogNode where
  metadata_type : String
  columns : List (String × RawColumn)
deriving DecidableEq

/-- One entry of the manifest document, restricted to the fields the source reads.
`identifier` and `materialized` model the optional presence of those keys;
`depends_on_nodes` models the dependency key list under `depends_on`. -/
structure ManifestNode where
  resource_type : String
  database : String
  schema : String
  original_file_path : String
  name : String
  identifier : Option String
  materialized : Option String
  depends_on_nodes : List String
deriving DecidableEq

/-- The `DBTColumn` class of dbt.py. -/
structure DBTColumn where
  name : String
  comment : String
  index : Int
  data_type : String
deriving DecidableEq

/-- The `DBTNode` class of dbt.py. -/
structure DBTNode where
  dbt_name : String
  database : String
  schema : String
  dbt_file_path : String
  node_type : String
  materialization : String
  name : String
  columns : List DBTColumn
  upstream_urns : List String
  datahub_urn : String
deriving DecidableEq

/-- `get_columns` of dbt.py: one `DBTColumn` per entry of the catalog node's
columns mapping, in mapping order. -/
def get_columns (catalog_node : CatalogNode) : List DBTColumn :=
  catalog_node.columns.map (fun p =>
    { comment := p.2.comment, data_type := p.2.type, index := p.2.index, name := p.2.name })

/-- Embedding of the Python string replace of every double-quote character by
the empty string: drop every double-quote character. -/
def removeQuoteChars : List Char → List Char
  | [] => []
  | c :: cs => if c = '"' then removeQuoteChars cs else c :: removeQuoteChars cs

/-- `get_urn_from_dbtNode` of dbt.py. -/
def get_urn_from_dbtNode (database schema name target_platform env : String) : String :=
  let db_fqn : String := String.mk (removeQuoteChars (database ++ "." ++ schema ++ "." ++ name).data)
  "urn:li:dataset:(urn:li:dataPlatform:" ++ target_platform ++ "," ++ db_fqn ++ "," ++ env ++ ")"

/-- `get_custom_properties` of dbt.py. -/
def get_custom_properties (node : DBTNode) : List (String × String) :=
  [("dbt_node_type", node.node_type),
   ("materialization", node.materialization),
   ("dbt_file_path", node.dbt_file_path)]

/-- `get_upstreams` of dbt.py: resolve every dependency key against the combined
manifest dict; a missing key raises (an uncaught lookup failure). -/
def get_upstreams (upstreams : List String) (all_nodes : List (String × ManifestNode))
    (load_catalog : Bool) (target_platform environment : String) :
    Except String (List String) :=
  match upstreams with
  | [] => Except.ok []
  | upstream :: rest =>
    match lookupD all_nodes upstream with
    | none => Except.error ("KeyError: " ++ upstream)
    | some un =>
      let nm : String :=
        match un.identifier, load_catalog with
        | some i, false => i
        | _, _ => un.name
      match get_upstreams rest all_nodes load_catalog target_platform environment with
      | Except.error e => Except.error e
      | Except.ok urns =>
        Except.ok (get_urn_from_dbtNode un.database un.schema nm target_platform environment :: urns)

/-- The final `DBTNode` value assembled by one loop iteration of
`extract_dbt_entities` (the Python code sets these fields one by one). -/
def mkDBTNode (key : String) (node : ManifestNode) (nm mat : String)
    (cols : List DBTColumn) (ups : List String) (target_platform environment : String) : DBTNode :=
  { dbt_name := key, database := node.database, schema := node.schema,
    dbt_file_path := node.original_file_path, node_type := node.resource_type,
    materialization := mat, name := nm, columns := cols, upstream_urns := ups,
    datahub_urn := get_urn_from_dbtNode node.database node.schema nm target_platform environment }

/-- The tail of one `extract_dbt_entities` loop iteration, after materialization
and upstreams are known: load columns from the catalog when materialization is
not ephemeral and catalog loading is on, then assemble the node. -/
def finishNode (catalog : List (String × CatalogNode)) (load_catalog : Bool)
    (target_platform environment : String) (key : String) (node : ManifestNode)
    (nm mat : String) (ups : List String) : Except String (Option DBTNode) :=
  if mat ≠ "ephemeral" ∧ load_catalog = true then
    match lookupD catalog key with
    | none => Except.error ("KeyError: " ++ key)
    | some c =>
      Except.ok (some (mkDBTNode key node nm mat (get_columns c) ups target_platform environment))
  else
    Except.ok (some (mkDBTNode key node nm mat [] ups target_platform environment))

/-- One loop iteration of `extract_dbt_entities` of dbt.py: `none` when the
node-type filter skips the entry, otherwise the extracted node; `Except.error`
models an uncaught lookup failure. -/
def processNode (all_nodes : List (String × ManifestNode)) (catalog : List (String × CatalogNode))
    (load_catalog : Bool) (target_platform environment : String)
    (node_type_pattern : String → Bool) (key : String) (node : ManifestNode) :
    Except String (Option DBTNode) :=
  if node_type_pattern node.resource_type = false then Except.ok none else
  let nm : String :=
    match node.identifier, load_catalog with
    | some i, false => i
    | _, _ => node.name
  match node.materialized with
  | some m =>
    match get_upstreams node.depends_on_nodes all_nodes load_catalog target_platform environment with
    | Except.error e => Except.error e
    | Except.ok ups => finishNode catalog load_catalog target_platform environment key node nm m ups
  | none =>
    match lookupD catalog key with
    | none => Except.error ("KeyError: " ++ key)
    | some c => finishNode catalog load_catalog target_platform environment key node nm c.metadata_type []

/-- The loop of `extract_dbt_entities`, walking a cursor over the entries while
lookups go against the full combined dict. -/
def extractGo (all_nodes : List (String × ManifestNode)) (catalog : List (String × CatalogNode))
    (load_catalog : Bool) (target_platform environment : String)
    (node_type_pattern : String → Bool) :
    List (String × ManifestNode) → List DBTNode → Except String (List DBTNode)
  | [], acc => Except.ok acc
  | kv :: rest, acc =>
    match processNode all_nodes catalog load_catalog target_platform environment
        node_type_pattern kv.1 kv.2 with
    | Except.error e => Except.error e
    | Except.ok none =>
      extractGo all_nodes catalog load_catalog target_platform environment node_type_pattern rest acc
    | Except.ok (some dn) =>
      extractGo all_nodes catalog load_catalog target_platform environment node_type_pattern rest
        (acc ++ [dn])

/-- `extract_dbt_entities` of dbt.py. -/
def extract_dbt_entities (nodes : List (String × ManifestNode))
    (catalog : List (String × CatalogNode)) (load_catalog : Bool)
    (target_platform environment : String) (node_type_pattern : String → Bool) :
    Except String (List DBTNode) :=
  extractGo nodes catalog load_catalog target_platform environment node_type_pattern nodes []

/-- `loadManifestAndCatalog` of dbt.py, after JSON parsing: merge the nodes and
sources dicts of each document, then extract. -/
def loadManifestAndCatalog (manifest_nodes manifest_sources : List (String × ManifestNode))
    (catalog_nodes catalog_sources : List (String × CatalogNode)) (load_catalog : Bool)
    (target_platform environment : String) (node_type_pattern : String → Bool) :
    Except String (List DBTNode) :=
  extract_dbt_entities (dictMerge manifest_nodes manifest_sources)
    (dictMerge catalog_nodes catalog_sources) load_catalog target_platform environment
    node_type_pattern

/-- The lineage relationship tag used by dbt.py (always `TRANSFORMED`). -/
inductive DatasetLineageType
  | TRANSFORMED
deriving DecidableEq

/-- The `AuditStamp` record attached to lineage and schema aspects. -/
structure AuditStamp where
  time : Int
  actor : String
deriving DecidableEq

/-- One upstream entry of a lineage aspect. -/
structure UpstreamClass where
  dataset : String
  auditStamp : AuditStamp
  type : DatasetLineageType
deriving DecidableEq

/-- The lineage aspect: the list of upstream entries. -/
structure UpstreamLineage where
  upstreams : List UpstreamClass
deriving DecidableEq

/-- `get_upstream_lineage` of dbt.py; `now` is the truncated wall clock read once
inside the call. -/
def get_upstream_lineage (now : Int) (upstream_urns : List String) : UpstreamLineage :=
  let sys_time := now * 1000
  { upstreams := upstream_urns.map (fun dep =>
      { dataset := dep,
        auditStamp := { time := sys_time, actor := "urn:li:corpuser:dbt_executor" },
        type := DatasetLineageType.TRANSFORMED }) }

/-- The canonical type tags of the metadata schema model that dbt.py reaches for. -/
inductive TypeClass
  | BooleanTypeClass
  | DateTypeClass
  | TimeTypeClass
  | NumberTypeClass
  | StringTypeClass
  | NullTypeClass
deriving DecidableEq

/-- The nine entries written out literally in the `_field_type_mapping` dict of
dbt.py (the part of the table that is in the sources at hand). -/
def base_field_type_mapping : List (String × TypeClass) :=
  [("boolean", TypeClass.BooleanTypeClass),
   ("date", TypeClass.DateTypeClass),
   ("time", TypeClass.TimeTypeClass),
   ("numeric", TypeClass.NumberTypeClass),
   ("text", TypeClass.StringTypeClass),
   ("timestamp with time zone", TypeClass.DateTypeClass),
   ("timestamp without time zone", TypeClass.DateTypeClass),
   ("integer", TypeClass.NumberTypeClass),
   ("float8", TypeClass.NumberTypeClass)]

/-- Lookup in the merged `_field_type_mapping` table. The dict is built as the
literal base entries updated by `POSTGRES_TYPES_MAP` then `SNOWFLAKE_TYPES_MAP`,
so on a shared key the snowflake table wins over the postgres table, which wins
over the base entries. Modelled from the spec: the two vendor tables come from
`dbt_types.py`, which is not among the sources at hand, so they are parameters. -/
def field_type_mapping_get (pg sf : String → Option TypeClass) (t : String) : Option TypeClass :=
  match sf t with
  | some tc => some tc
  | none =>
    match pg t with
    | some tc => some tc
    | none => lookupD base_field_type_mapping t

/-- The wrapper record around a canonical type tag (`SchemaFieldDataType`). -/
structure SchemaFieldDataType where
  type : TypeClass
deriving DecidableEq

/-- `get_column_type` of dbt.py: merged-table lookup, then the vendor modified
type resolver `rmod`, then a warning plus the null type tag. The threaded report
list models the mutable `SourceReport`. -/
def get_column_type (pg sf rmod : String → Option TypeClass)
    (report : List (String × String)) (dataset_name column_type : String) :
    SchemaFieldDataType × List (String × String) :=
  match field_type_mapping_get pg sf column_type with
  | some tc => ({ type := tc }, report)
  | none =>
    match rmod column_type with
    | some tc => ({ type := tc }, report)
    | none =>
      ({ type := TypeClass.NullTypeClass },
       report ++ [(dataset_name, "unable to map type " ++ column_type ++ " to metadata schema")])

/-- One field of the schema aspect. -/
structure SchemaField where
  fieldPath : String
  nativeDataType : String
  type : SchemaFieldDataType
  description : String
  nullable : Bool
  recursive : Bool
deriving DecidableEq

/-- The schema aspect; `tableSchema` is the empty placeholder platform schema. -/
structure SchemaMetadata where
  schemaName : String
  platform : String
  version : Int
  hash : String
  tableSchema : String
  created : AuditStamp
  lastModified : AuditStamp
  fields : List SchemaField
deriving DecidableEq

/-- The field-building loop of `get_schema_metadata`: one `SchemaField` per
column in order, threading the report through `get_column_type`. -/
def buildFields (pg sf rmod : String → Option TypeClass) (dbt_name : String) :
    List DBTColumn → List (String × String) → List SchemaField × List (String × String)
  | [], report => ([], report)
  | column :: rest, report =>
    let ft := get_column_type pg sf rmod report dbt_name column.data_type
    let restOut := buildFields pg sf rmod dbt_name rest ft.2
    ({ fieldPath := column.name, nativeDataType := column.data_type, type := ft.1,
       description := column.comment, nullable := false, recursive := false } :: restOut.1,
     restOut.2)

/-- `get_schema_metadata` of dbt.py; `now` is the truncated wall clock read once
inside the call, used for both audit stamps. -/
def get_schema_metadata (now : Int) (pg sf rmod : String → Option TypeClass)
    (report : List (String × String)) (node : DBTNode) (platform : String) :
    SchemaMetadata × List (String × String) :=
  let fr := buildFields pg sf rmod node.dbt_name node.columns report
  let sys_time := now * 1000
  ({ schemaName := node.dbt_name, platform := "urn:li:dataPlatform:" ++ platform,
     version := 0, hash := "", tableSchema := "",
     created := { time := sys_time, actor := "urn:li:corpuser:dbt_executor" },
     lastModified := { time := sys_time, actor := "urn:li:corpuser:dbt_executor" },
     fields := fr.1 }, fr.2)

/-- The dataset properties aspect. -/
structure DatasetPropertiesClass where
  description : String
  customProperties : List (String × String)
  tags : List String
deriving DecidableEq

/-- The aspects a snapshot of this source can carry. -/
inductive Aspect
  | props : DatasetPropertiesClass → Aspect
  | lineage : UpstreamLineage → Aspect
  | schemaAspect : SchemaMetadata → Aspect
deriving DecidableEq

/-- The dataset snapshot assembled per node. -/
structure DatasetSnapshot where
  urn : String
  aspects : List Aspect
deriving DecidableEq

/-- One output record of the source. -/
structure MetadataWorkUnit where
  id : String
  snapshot : DatasetSnapshot
deriving DecidableEq

/-- The per-node emission step of `DBTSource.get_workunits`: properties aspect,
then the lineage aspect (`get_upstream_lineage` always returns a value, so the
not-None check of the source always appends it), then the schema aspect exactly
when `load_schemas` is on. -/
def emitNode (load_schemas : Bool) (platform : String) (now : Int)
    (pg sf rmod : String → Option TypeClass) (report : List (String × String))
    (node : DBTNode) : MetadataWorkUnit × List (String × String) :=
  let props : DatasetPropertiesClass :=
    { description := node.dbt_name, customProperties := get_custom_properties node, tags := [] }
  let upstreams := get_upstream_lineage now node.upstream_urns
  let baseAspects := [Aspect.props props, Aspect.lineage upstreams]
  if load_schemas then
    let smr := get_schema_metadata now pg sf rmod report node platform
    let snap : DatasetSnapshot :=
      { urn := node.datahub_urn, aspects := baseAspects ++ [Aspect.schemaAspect smr.1] }
    ({ id := node.datahub_urn, snapshot := snap }, smr.2)
  else
    let snap : DatasetSnapshot := { urn := node.datahub_urn, aspects := baseAspects }
    ({ id := node.datahub_urn, snapshot := snap }, report)

/-- The emission loop of `DBTSource.get_workunits` over the extracted nodes,
threading the report. -/
def emitAll (load_schemas : Bool) (platform : String) (now : Int)
    (pg sf rmod : String → Option TypeClass) :
    List DBTNode → List (String × String) → List MetadataWorkUnit × List (String × String)
  | [], report => ([], report)
  | node :: rest, report =>
    let first := emitNode load_schemas platform now pg sf rmod report node
    let restOut := emitAll load_schemas platform now pg sf rmod rest first.2
    (first.1 :: restOut.1, restOut.2)

/-- `DBTSource.get_workunits` of dbt.py as a whole-run function: load and
extract, then emit one work unit per node; an extraction failure aborts the run
with no output records. -/
def get_workunits (manifest_nodes manifest_sources : List (String × ManifestNode))
    (catalog_nodes catalog_sources : List (String × CatalogNode)) (load_schemas : Bool)
    (target_platform environment : String) (node_type_pattern : String → Bool)
    (platform : String) (now : Int) (pg sf rmod : String → Option TypeClass) :
    Except String (List MetadataWorkUnit × List (String × String)) :=
  match loadManifestAndCatalog manifest_nodes manifest_sources catalog_nodes catalog_sources
      load_schemas target_platform environment node_type_pattern with
  | Except.error e => Except.error e
  | Except.ok nodesList => Except.ok (emitAll load_schemas platform now pg sf rmod nodesList [])

/-- Name selection rule as the spec words it: the declared identifier field
exactly when that field is present and schema-loading is disabled; the declared
name field in all other cases. Stated from the spec to compare against the two
code sites that implement it. -/
def claimNameRule (identifier : Option String) (name : String) (load_catalog : Bool) : String :=
  if identifier.isSome ∧ load_catalog = false then identifier.getD name else name

/-- Reference version of `get_upstreams` whose name selection goes through
`claimNameRule`, to compare against the code's own selection. -/
def upstreamsRef (upstreams : List String) (all_nodes : List (String × ManifestNode))
    (load_catalog : Bool) (target_platform environment : String) :
    Except String (List String) :=
  match upstreams with
  | [] => Except.ok []
  | upstream :: rest =>
    match lookupD all_nodes upstream with
    | none => Except.error ("KeyError: " ++ upstream)
    | some un =>
      match upstreamsRef rest all_nodes load_catalog target_platform environment with
      | Except.error e => Except.error e
      | Except.ok urns =>
        Except.ok (get_urn_from_dbtNode un.database un.schema
          (claimNameRule un.identifier un.name load_catalog) target_platform environment :: urns)

/-! Helper lemmas about quote stripping. -/

theorem removeQuoteChars_eq_filter (l : List Char) :
    removeQuoteChars l = l.filter (fun c => c != '"') := by
  induction l with
  | nil => rfl
  | cons c cs ih =>
    by_cases h : c = '"' <;> simp [removeQuoteChars, List.filter_cons, h, ih]

theorem quote_not_mem_removeQuoteChars (l : List Char) :
    '"' ∉ removeQuoteChars l := by
  rw [removeQuoteChars_eq_filter]
  simp [List.mem_filter]

/-- C1 counterexample: the claim says no double-quote character from any of the
five components appears in the result, but a double quote inside the `env`
component (and likewise the platform component) passes through verbatim: the
resolver strips quotes only from the database.schema.name triple. -/
theorem urn_quote_passthrough_counterexample :
    '"' ∈ (get_urn_from_dbtNode "db" "sch" "nm" "pf" "EN\"V").data := by decide

/-- C1 (amended): the resolver is the pure function whose value is exactly
the urn template around the database.schema.name triple with every
double-quote character removed from that triple, and consequently no
double-quote character of the database, schema, or name components survives in
the stripped triple; quotes in the platform or env components pass through. -/
theorem urn_resolver_amended (database schema name target_platform env : String) :
    get_urn_from_dbtNode database schema name target_platform env =
      "urn:li:dataset:(urn:li:dataPlatform:" ++ target_platform ++ ","
        ++ String.mk ((database ++ "." ++ schema ++ "." ++ name).data.filter (fun c => c != '"'))
        ++ "," ++ env ++ ")"
    ∧ '"' ∉ ((database ++ "." ++ schema ++ "." ++ name).data.filter (fun c => c != '"')) := by
  refine ⟨?_, ?_⟩
  · simp [get_urn_from_dbtNode, removeQuoteChars_eq_filter]
  · simp [List.mem_filter]

/-! Helper lemmas about dict lookup, update and merge. -/

theorem lookupD_map_overwrite {α : Type} (k : String) (v : α) :
    ∀ m : List (String × α), m.any (fun p => decide (p.1 = k)) = true →
      lookupD (m.map (fun p => if p.1 = k then (k, v) else p)) k = some v := by
  intro m
  induction m with
  | nil => intro h; simp at h
  | cons p ps ih =>
    intro h
    by_cases hp : p.1 = k
    · simp [lookupD, hp]
    · have hps : ps.any (fun p => decide (p.1 = k)) = true := by
        simp [List.any_cons, hp] at h
        simpa using h
      simp [lookupD, hp, ih hps]

theorem lookupD_map_overwrite_ne {α : Type} (k k2 : String) (v : α) (hne : k ≠ k2) :
    ∀ m : List (String × α),
      lookupD (m.map (fun p => if p.1 = k2 then (k2, v) else p)) k = lookupD m k := by
  intro m
  induction m with
  | nil => rfl
  | cons p ps ih =>
    by_cases hp : p.1 = k2
    · simp [lookupD, hp, hne.symm, ih]
    · by_cases hk : p.1 = k
      · simp [lookupD, hp, hk, hne]
      · simp [lookupD, hp, hk, ih]

theorem lookupD_append_single {α : Type} (k : String) (v : α) :
    ∀ m : List (String × α), m.any (fun p => decide (p.1 = k)) = false →
      lookupD (m ++ [(k, v)]) k = some v := by
  intro m
  induction m with
  | nil => intro _; simp [lookupD]
  | cons p ps ih =>
    intro h
    simp [List.any_cons] at h
    simp [lookupD, h.1, ih (by simpa using h.2)]

theorem lookupD_append_single_ne {α : Type} (k k2 : String) (v : α) (hne : k ≠ k2) :
    ∀ m : List (String × α), lookupD (m ++ [(k2, v)]) k = lookupD m k := by
  intro m
  induction m with
  | nil => simp [lookupD, hne.symm]
  | cons p ps ih => by_cases hk : p.1 = k <;> simp [lookupD, hk, ih]

theorem lookupD_insertKV_self {α : Type} (m : List (String × α)) (k : String) (v : α) :
    lookupD (insertKV m k v) k = some v := by
  unfold insertKV
  by_cases h : m.any (fun p => decide (p.1 = k)) = true
  · simp [h, lookupD_map_overwrite k v m h]
  · have h2 : m.any (fun p => decide (p.1 = k)) = false := by
      cases hx : m.any (fun p => decide (p.1 = k))
      · rfl
      · exact absurd hx h
    simp [h2, lookupD_append_single k v m h2]

theorem lookupD_insertKV_ne {α : Type} (m : List (String × α)) (k k2 : String) (v : α)
    (hne : k ≠ k2) : lookupD (insertKV m k2 v) k = lookupD m k := by
  unfold insertKV
  by_cases h : m.any (fun p => decide (p.1 = k2)) = true
  · simp [h, lookupD_map_overwrite_ne k k2 v hne m]
  · have h2 : m.any (fun p => decide (p.1 = k2)) = false := by
      cases hx : m.any (fun p => decide (p.1 = k2))
      · rfl
      · exact absurd hx h
    simp [h2, lookupD_append_single_ne k k2 v hne m]

theorem lookupD_dictMerge_of_not_mem {α : Type} (k : String) :
    ∀ (b a : List (String × α)), k ∉ b.map Prod.fst →
      lookupD (dictMerge a b) k = lookupD a k := by
  intro b
  induction b with
  | nil => intro a _; rfl
  | cons p bs ih =>
    intro a hk
    rw [List.map_cons, List.mem_cons] at hk
    push_neg at hk
    have hstep : dictMerge a (p :: bs) = dictMerge (insertKV a p.1 p.2) bs := rfl
    rw [hstep, ih (insertKV a p.1 p.2) hk.2]
    exact lookupD_insertKV_ne a k p.1 p.2 hk.1

theorem lookupD_dictMerge_right {α : Type} :
    ∀ (b a : List (String × α)) (k : String) (vb : α),
      (b.map Prod.fst).Nodup → lookupD b k = some vb →
      lookupD (dictMerge a b) k = some vb := by
  intro b
  induction b with
  | nil => intro a k vb _ hb; simp [lookupD] at hb
  | cons p bs ih =>
    intro a k vb hnd hb
    rw [List.map_cons, List.nodup_cons] at hnd
    have hstep : dictMerge a (p :: bs) = dictMerge (insertKV a p.1 p.2) bs := rfl
    by_cases hp : p.1 = k
    · have hvb : some p.2 = some vb := by simpa [lookupD, hp] using hb
      have hknot : k ∉ bs.map Prod.fst := hp ▸ hnd.1
      rw [hstep, lookupD_dictMerge_of_not_mem k bs (insertKV a p.1 p.2) hknot, ← hvb, ← hp]
      exact lookupD_insertKV_self a p.1 p.2
    · have hb2 : lookupD bs k = some vb := by simpa [lookupD, hp] using hb
      rw [hstep]
      exact ih (insertKV a p.1 p.2) k vb hnd.2 hb2

/-- C10: when the nodes and sources dicts are merged, a key present in both
takes its value from the later operand (the sources dict); the merge is total
and `loadManifestAndCatalog` just merges and extracts, with no validation step
rejecting duplicate keys. The Nodup hypothesis states that each parsed JSON
object has unique keys. -/
theorem merge_later_operand_wins {α : Type} (a b : List (String × α)) (k : String) (va vb : α)
    (hnodup : (b.map Prod.fst).Nodup)
    (ha : lookupD a k = some va) (hb : lookupD b k = some vb)
    (manifest_nodes manifest_sources : List (String × ManifestNode))
    (catalog_nodes catalog_sources : List (String × CatalogNode)) (lc : Bool)
    (tp env : String) (pat : String → Bool) :
    lookupD (dictMerge a b) k = some vb
    ∧ loadManifestAndCatalog manifest_nodes manifest_sources catalog_nodes catalog_sources
        lc tp env pat
      = extract_dbt_entities (dictMerge manifest_nodes manifest_sources)
          (dictMerge catalog_nodes catalog_sources) lc tp env pat :=
  ⟨lookupD_dictMerge_right b a k vb hnodup hb, rfl⟩

/-- C10 witness: on a concrete pair of dicts sharing the key `k`, the merged
value is the one from the later operand. -/
theorem merge_later_operand_wins_witness :
    lookupD (dictMerge [("k", 1), ("x", 2)] [("k", 9)]) "k" = some 9
    ∧ loadManifestAndCatalog [] [] [] [] false "tp" "PROD" (fun _ => true)
      = extract_dbt_entities (dictMerge [] []) (dictMerge [] []) false "tp" "PROD"
          (fun _ => true) :=
  merge_later_operand_wins [("k", 1), ("x", 2)] [("k", 9)] "k" 1 9 (by decide)
    (by decide) (by decide) [] [] [] [] false "tp" "PROD" (fun _ => true)

/-! Helper lemmas about the per-entry extraction step. -/

theorem nameMatch_eq_claimNameRule (identifier : Option String) (name : String) (lc : Bool) :
    (match identifier, lc with
     | some i, false => i
     | _, _ => name) = claimNameRule identifier name lc := by
  cases identifier <;> cases lc <;> simp [claimNameRule]

theorem processNode_spec (all_nodes : List (String × ManifestNode))
    (catalog : List (String × CatalogNode)) (lc : Bool) (tp env : String)
    (pat : String → Bool) (key : String) (node : ManifestNode) (dn : DBTNode)
    (hok : processNode all_nodes catalog lc tp env pat key node = Except.ok (some dn)) :
    pat node.resource_type = true
    ∧ dn.name = claimNameRule node.identifier node.name lc
    ∧ (∀ m, node.materialized = some m →
        dn.materialization = m
        ∧ get_upstreams node.depends_on_nodes all_nodes lc tp env = Except.ok dn.upstream_urns)
    ∧ (node.materialized = none →
        dn.upstream_urns = []
        ∧ ∃ c, lookupD catalog key = some c ∧ dn.materialization = c.metadata_type)
    ∧ ((dn.materialization ≠ "ephemeral" ∧ lc = true) →
        ∃ c, lookupD catalog key = some c ∧ dn.columns = get_columns c)
    ∧ ((dn.materialization = "ephemeral" ∨ lc = false) → dn.columns = []) := by
  by_cases hpat : pat node.resource_type = false
  · exfalso
    simp [processNode, hpat] at hok
  · have hpat2 : pat node.resource_type = true := by
      cases h : pat node.resource_type
      · exact absurd h hpat
      · rfl
    refine ⟨hpat2, ?_⟩
    simp only [processNode, hpat2, Bool.true_eq_false, if_false] at hok
    cases hmat : node.materialized with
    | some m =>
      rw [hmat] at hok
      simp only [] at hok
      cases hup : get_upstreams node.depends_on_nodes all_nodes lc tp env with
      | error e => rw [hup] at hok; simp at hok
      | ok ups =>
        rw [hup] at hok
        simp only [finishNode] at hok
        by_cases hc : m ≠ "ephemeral" ∧ lc = true
        · rw [if_pos hc] at hok
          cases hcat : lookupD catalog key with
          | none => rw [hcat] at hok; simp at hok
          | some c =>
            rw [hcat] at hok
            simp only [Except.ok.injEq, Option.some.injEq] at hok
            subst hok
            refine ⟨by simp [mkDBTNode, nameMatch_eq_claimNameRule], ?_, ?_, ?_, ?_⟩
            · intro m2 hm2
              injection hm2 with h2
              subst h2
              exact ⟨rfl, rfl⟩
            · intro hnone
              cases hnone
            · intro _
              exact ⟨c, rfl, rfl⟩
            · intro hdisj
              exfalso
              rcases hdisj with h | h
              · exact hc.1 h
              · rw [h] at hc
                simp at hc
        · rw [if_neg hc] at hok
          simp only [Except.ok.injEq, Option.some.injEq] at hok
          subst hok
          refine ⟨by simp [mkDBTNode, nameMatch_eq_claimNameRule], ?_, ?_, ?_, ?_⟩
          · intro m2 hm2
            injection hm2 with h2
            subst h2
            exact ⟨rfl, rfl⟩
          · intro hnone
            cases hnone
          · intro hcond
            exact absurd hcond hc
          · intro _
            rfl
    | none =>
      rw [hmat] at hok
      simp only [] at hok
      cases hcat : lookupD catalog key with
      | none => rw [hcat] at hok; simp at hok
      | some c =>
        rw [hcat] at hok
        simp only [finishNode] at hok
        by_cases hc : c.metadata_type ≠ "ephemeral" ∧ lc = true
        · rw [if_pos hc] at hok
          rw [hcat] at hok
          simp only [Except.ok.injEq, Option.some.injEq] at hok
          subst hok
          refine ⟨by simp [mkDBTNode, nameMatch_eq_claimNameRule], ?_, ?_, ?_, ?_⟩
          · intro m2 hm2
            cases hm2
          · intro _
            exact ⟨rfl, c, rfl, rfl⟩
          · intro _
            exact ⟨c, rfl, rfl⟩
          · intro hdisj
            exfalso
            rcases hdisj with h | h
            · exact hc.1 h
            · rw [h] at hc
              simp at hc
        · rw [if_neg hc] at hok
          simp only [Except.ok.injEq, Option.some.injEq] at hok
          subst hok
          refine ⟨by simp [mkDBTNode, nameMatch_eq_claimNameRule], ?_, ?_, ?_, ?_⟩
          · intro m2 hm2
            cases hm2
          · intro _
            exact ⟨rfl, c, rfl, rfl⟩
          · intro hcond
            exact absurd hcond hc
          · intro _
            rfl

/-- C2: for a manifest entry that passes the node-type filter and yields a node,
a present materialized config key makes the node's materialization that value
with upstreams resolved from the entry's dependency key list, while an absent
key takes the materialization from the catalog entry under the node's key and
leaves the upstream list empty (so every source-category node has empty
upstreams). -/
theorem model_source_classification (all_nodes : List (String × ManifestNode))
    (catalog : List (String × CatalogNode)) (lc : Bool) (tp env : String)
    (pat : String → Bool) (key : String) (node : ManifestNode) (dn : DBTNode)
    (hpat : pat node.resource_type = true)
    (hok : processNode all_nodes catalog lc tp env pat key node = Except.ok (some dn)) :
    (∀ m, node.materialized = some m →
        dn.materialization = m
        ∧ get_upstreams node.depends_on_nodes all_nodes lc tp env = Except.ok dn.upstream_urns)
    ∧ (node.materialized = none →
        dn.upstream_urns = []
        ∧ ∃ c, lookupD catalog key = some c ∧ dn.materialization = c.metadata_type) :=
  ⟨(processNode_spec all_nodes catalog lc tp env pat key node dn hok).2.2.1,
   (processNode_spec all_nodes catalog lc tp env pat key node dn hok).2.2.2.1⟩

theorem get_upstreams_eq_ref (all_nodes : List (String × ManifestNode)) (lc : Bool)
    (tp env : String) :
    ∀ ups : List String,
      get_upstreams ups all_nodes lc tp env = upstreamsRef ups all_nodes lc tp env := by
  intro ups
  induction ups with
  | nil => rfl
  | cons u rest ih =>
    cases hl : lookupD all_nodes u with
    | none => simp [get_upstreams, upstreamsRef, hl]
    | some un => simp [get_upstreams, upstreamsRef, hl, ih, nameMatch_eq_claimNameRule]

/-- C8: the logical-name selection is the same rule at both code sites: in node
extraction the produced node's name is the identifier field exactly when present
with schema-loading disabled, the name field otherwise; and upstream resolution
equals a reference resolver applying that same rule to each dependency. -/
theorem name_selection_rule (all_nodes : List (String × ManifestNode))
    (catalog : List (String × CatalogNode)) (lc : Bool) (tp env : String)
    (pat : String → Bool) (key : String) (node : ManifestNode) (dn : DBTNode)
    (ups : List String)
    (hok : processNode all_nodes catalog lc tp env pat key node = Except.ok (some dn)) :
    dn.name = claimNameRule node.identifier node.name lc
    ∧ get_upstreams ups all_nodes lc tp env = upstreamsRef ups all_nodes lc tp env :=
  ⟨(processNode_spec all_nodes catalog lc tp env pat key node dn hok).2.1,
   get_upstreams_eq_ref all_nodes lc tp env ups⟩

/-! Helper lemmas about error propagation through extraction. -/

theorem get_upstreams_error_of_missing (all_nodes : List (String × ManifestNode))
    (lc : Bool) (tp env : String) (u : String) (hmiss : lookupD all_nodes u = none) :
    ∀ ups : List String, u ∈ ups →
      ∃ e, get_upstreams ups all_nodes lc tp env = Except.error e := by
  intro ups
  induction ups with
  | nil => intro h; simp at h
  | cons v rest ih =>
    intro h
    by_cases hv : v = u
    · subst hv
      exact ⟨"KeyError: " ++ v, by simp [get_upstreams, hmiss]⟩
    · have hu : u ∈ rest := by
        rcases List.mem_cons.mp h with h1 | h1
        · exact absurd h1.symm hv
        · exact h1
      cases hl : lookupD all_nodes v with
      | none => exact ⟨"KeyError: " ++ v, by simp [get_upstreams, hl]⟩
      | some un =>
        obtain ⟨e, he⟩ := ih hu
        exact ⟨e, by simp [get_upstreams, hl, he]⟩

theorem processNode_error_of_bad (all_nodes : List (String × ManifestNode))
    (catalog : List (String × CatalogNode)) (lc : Bool) (tp env : String)
    (pat : String → Bool) (key : String) (node : ManifestNode)
    (hpat : pat node.resource_type = true)
    (hbad : (∃ m u, node.materialized = some m ∧ u ∈ node.depends_on_nodes
               ∧ lookupD all_nodes u = none)
          ∨ (node.materialized = none ∧ lookupD catalog key = none)
          ∨ (∃ m, node.materialized = some m ∧ m ≠ "ephemeral" ∧ lc = true
               ∧ lookupD catalog key = none)) :
    ∃ e, processNode all_nodes catalog lc tp env pat key node = Except.error e := by
  rcases hbad with ⟨m, u, hm, hu, hmiss⟩ | ⟨hm, hcat⟩ | ⟨m, hm, hme, hlc, hcat⟩
  · obtain ⟨e, he⟩ :=
      get_upstreams_error_of_missing all_nodes lc tp env u hmiss node.depends_on_nodes hu
    exact ⟨e, by simp [processNode, hpat, hm, he]⟩
  · exact ⟨"KeyError: " ++ key, by simp [processNode, hpat, hm, hcat]⟩
  · subst hlc
    cases hup : get_upstreams node.depends_on_nodes all_nodes true tp env with
    | error e => exact ⟨e, by simp [processNode, hpat, hm, hup]⟩
    | ok ups =>
      exact ⟨"KeyError: " ++ key,
        by simp [processNode, hpat, hm, hup, finishNode, hme, hcat]⟩

theorem extractGo_error_of_mem (all_nodes : List (String × ManifestNode))
    (catalog : List (String × CatalogNode)) (lc : Bool) (tp env : String)
    (pat : String → Bool) :
    ∀ (cursor : List (String × ManifestNode)) (acc : List DBTNode)
      (key : String) (node : ManifestNode), (key, node) ∈ cursor →
      (∃ e, processNode all_nodes catalog lc tp env pat key node = Except.error e) →
      ∃ e, extractGo all_nodes catalog lc tp env pat cursor acc = Except.error e := by
  intro cursor
  induction cursor with
  | nil => intro acc key node h _; simp at h
  | cons kv rest ih =>
    intro acc key node h hpe
    rcases List.mem_cons.mp h with h1 | h1
    · obtain ⟨e, he⟩ := hpe
      rw [← h1] at *
      exact ⟨e, by simp [extractGo, he]⟩
    · cases hp : processNode all_nodes catalog lc tp env pat kv.1 kv.2 with
      | error e => exact ⟨e, by simp [extractGo, hp]⟩
      | ok r =>
        cases r with
        | none =>
          obtain ⟨e, he⟩ := ih acc key node h1 hpe
          exact ⟨e, by simp [extractGo, hp, he]⟩
        | some dn =>
          obtain ⟨e, he⟩ := ih (acc ++ [dn]) key node h1 hpe
          exact ⟨e, by simp [extractGo, hp, he]⟩

/-- C3: a filtered-in manifest entry that hits a missing key — a dependency key
absent from the combined manifest dict, a source entry (no materialized key)
with no catalog entry under its key, or a model entry needing catalog columns
(schema loading on, materialization not ephemeral) with no catalog entry —
makes extraction raise an uncaught lookup failure: the whole load aborts and
the driver produces no output records at all. -/
theorem missing_key_aborts_extraction
    (manifest_nodes manifest_sources : List (String × ManifestNode))
    (catalog_nodes catalog_sources : List (String × CatalogNode)) (lc : Bool)
    (tp env : String) (pat : String → Bool) (platform : String) (now : Int)
    (pg sf rmod : String → Option TypeClass) (key : String) (node : ManifestNode)
    (hmem : (key, node) ∈ dictMerge manifest_nodes manifest_sources)
    (hpat : pat node.resource_type = true)
    (hbad : (∃ m u, node.materialized = some m ∧ u ∈ node.depends_on_nodes
               ∧ lookupD (dictMerge manifest_nodes manifest_sources) u = none)
          ∨ (node.materialized = none
               ∧ lookupD (dictMerge catalog_nodes catalog_sources) key = none)
          ∨ (∃ m, node.materialized = some m ∧ m ≠ "ephemeral" ∧ lc = true
               ∧ lookupD (dictMerge catalog_nodes catalog_sources) key = none)) :
    (∃ e, loadManifestAndCatalog manifest_nodes manifest_sources catalog_nodes catalog_sources
        lc tp env pat = Except.error e)
    ∧ ∀ r, get_workunits manifest_nodes manifest_sources catalog_nodes catalog_sources
        lc tp env pat platform now pg sf rmod ≠ Except.ok r := by
  obtain ⟨e, he⟩ := processNode_error_of_bad (dictMerge manifest_nodes manifest_sources)
    (dictMerge catalog_nodes catalog_sources) lc tp env pat key node hpat hbad
  obtain ⟨e2, he2⟩ := extractGo_error_of_mem (dictMerge manifest_nodes manifest_sources)
    (dictMerge catalog_nodes catalog_sources) lc tp env pat
    (dictMerge manifest_nodes manifest_sources) [] key node hmem ⟨e, he⟩
  refine ⟨⟨e2, he2⟩, ?_⟩
  intro r hr
  simp [get_workunits, loadManifestAndCatalog, extract_dbt_entities, he2] at hr

/-! Helper lemma about the aspects of every emitted work unit. -/

theorem emitAll_mem_aspects (ls : Bool) (platform : String) (now : Int)
    (pg sf rmod : String → Option TypeClass) :
    ∀ (nodes : List DBTNode) (report : List (String × String)) (wu : MetadataWorkUnit),
      wu ∈ (emitAll ls platform now pg sf rmod nodes report).1 →
      ((∃ sm, Aspect.schemaAspect sm ∈ wu.snapshot.aspects) ↔ ls = true)
      ∧ ∃ ul, Aspect.lineage ul ∈ wu.snapshot.aspects := by
  intro nodes
  induction nodes with
  | nil => intro report wu h; simp [emitAll] at h
  | cons node rest ih =>
    intro report wu h
    simp only [emitAll, List.mem_cons] at h
    rcases h with h | h
    · subst h
      cases ls
      · constructor
        · simp [emitNode]
        · exact ⟨get_upstream_lineage now node.upstream_urns, by simp [emitNode]⟩
      · constructor
        · simp only [eq_self_iff_true, iff_true]
          exact ⟨(get_schema_metadata now pg sf rmod report node platform).1,
            by simp [emitNode]⟩
        · exact ⟨get_upstream_lineage now node.upstream_urns, by simp [emitNode]⟩
    · exact ih _ wu h

/-- C5: a produced node's columns come from its catalog entry exactly when its
materialization is not ephemeral and schema-loading is enabled, and are empty
otherwise; and a schema aspect is attached to an emitted work unit exactly when
`load_schemas` is true (never when it is false). -/
theorem schema_gating (all_nodes : List (String × ManifestNode))
    (catalog : List (String × CatalogNode)) (lc : Bool) (tp env : String)
    (pat : String → Bool) (key : String) (node : ManifestNode) (dn : DBTNode)
    (manifest_nodes manifest_sources : List (String × ManifestNode))
    (catalog_nodes catalog_sources : List (String × CatalogNode)) (ls : Bool)
    (tp2 env2 : String) (pat2 : String → Bool) (platform : String) (now : Int)
    (pg sf rmod : String → Option TypeClass)
    (units : List MetadataWorkUnit) (rep : List (String × String)) (wu : MetadataWorkUnit)
    (hok : processNode all_nodes catalog lc tp env pat key node = Except.ok (some dn))
    (hw : get_workunits manifest_nodes manifest_sources catalog_nodes catalog_sources ls
        tp2 env2 pat2 platform now pg sf rmod = Except.ok (units, rep))
    (hm : wu ∈ units) :
    ((dn.materialization ≠ "ephemeral" ∧ lc = true) →
        ∃ c, lookupD catalog key = some c ∧ dn.columns = get_columns c)
    ∧ ((dn.materialization = "ephemeral" ∨ lc = false) → dn.columns = [])
    ∧ ((∃ sm, Aspect.schemaAspect sm ∈ wu.snapshot.aspects) ↔ ls = true) := by
  refine ⟨(processNode_spec all_nodes catalog lc tp env pat key node dn hok).2.2.2.2.1,
          (processNode_spec all_nodes catalog lc tp env pat key node dn hok).2.2.2.2.2, ?_⟩
  unfold get_workunits at hw
  cases hload : loadManifestAndCatalog manifest_nodes manifest_sources catalog_nodes
      catalog_sources ls tp2 env2 pat2 with
  | error e => rw [hload] at hw; cases hw
  | ok nodesList =>
    rw [hload] at hw
    simp only [Except.ok.injEq] at hw
    have hm2 : wu ∈ (emitAll ls platform now pg sf rmod nodesList []).1 := by
      rw [hw]; exact hm
    exact (emitAll_mem_aspects ls platform now pg sf rmod nodesList [] wu hm2).1

/-- C7: the lineage builder emits one entry per upstream identifier in input
order, each with the fixed executor actor and the transformed relationship; the
empty input gives an empty-but-present lineage record; and every emitted work
unit carries a lineage aspect (the not-None guard never skips it). -/
theorem lineage_builder_spec (now : Int) (urns : List String)
    (manifest_nodes manifest_sources : List (String × ManifestNode))
    (catalog_nodes catalog_sources : List (String × CatalogNode)) (ls : Bool)
    (tp env : String) (pat : String → Bool) (platform : String) (now2 : Int)
    (pg sf rmod : String → Option TypeClass)
    (units : List MetadataWorkUnit) (rep : List (String × String)) (wu : MetadataWorkUnit)
    (hw : get_workunits manifest_nodes manifest_sources catalog_nodes catalog_sources ls
        tp env pat platform now2 pg sf rmod = Except.ok (units, rep))
    (hm : wu ∈ units) :
    (get_upstream_lineage now urns).upstreams.map (fun uc => uc.dataset) = urns
    ∧ (∀ uc ∈ (get_upstream_lineage now urns).upstreams,
        uc.auditStamp.actor = "urn:li:corpuser:dbt_executor"
        ∧ uc.type = DatasetLineageType.TRANSFORMED)
    ∧ get_upstream_lineage now [] = { upstreams := [] }
    ∧ ∃ ul, Aspect.lineage ul ∈ wu.snapshot.aspects := by
  refine ⟨?_, ?_, rfl, ?_⟩
  · simp only [get_upstream_lineage, List.map_map]
    exact List.map_id urns
  · intro uc huc
    simp only [get_upstream_lineage] at huc
    obtain ⟨dep, -, rfl⟩ := List.mem_map.mp huc
    exact ⟨rfl, rfl⟩
  · unfold get_workunits at hw
    cases hload : loadManifestAndCatalog manifest_nodes manifest_sources catalog_nodes
        catalog_sources ls tp env pat with
    | error e => rw [hload] at hw; cases hw
    | ok nodesList =>
      rw [hload] at hw
      simp only [Except.ok.injEq] at hw
      have hm2 : wu ∈ (emitAll ls platform now2 pg sf rmod nodesList []).1 := by
        rw [hw]; exact hm
      exact (emitAll_mem_aspects ls platform now2 pg sf rmod nodesList [] wu hm2).2

/-- C4: the type mapper is total and returns a wrapped canonical tag for every
input string; when neither the merged table nor the vendor modified-type
resolver matches it falls back to the null tag and appends exactly one warning
naming the dataset and the offending type string; when either lookup matches,
the report is unchanged. -/
theorem type_mapper_total (pg sf rmod : String → Option TypeClass)
    (report : List (String × String)) (dataset_name column_type : String) :
    (field_type_mapping_get pg sf column_type = none → rmod column_type = none →
       get_column_type pg sf rmod report dataset_name column_type
         = ({ type := TypeClass.NullTypeClass },
            report ++ [(dataset_name,
              "unable to map type " ++ column_type ++ " to metadata schema")]))
    ∧ (∀ tc, field_type_mapping_get pg sf column_type = some tc →
       get_column_type pg sf rmod report dataset_name column_type = ({ type := tc }, report))
    ∧ (∀ tc, field_type_mapping_get pg sf column_type = none → rmod column_type = some tc →
       get_column_type pg sf rmod report dataset_name column_type = ({ type := tc }, report)) := by
  refine ⟨?_, ?_, ?_⟩
  · intro h1 h2
    simp [get_column_type, h1, h2]
  · intro tc h
    simp [get_column_type, h]
  · intro tc h1 h2
    simp [get_column_type, h1, h2]

/-- C4 witness: with empty vendor tables and resolver, an unknown type string
maps to the null tag with exactly one warning naming the dataset and the type. -/
theorem type_mapper_total_witness :
    get_column_type (fun _ => none) (fun _ => none) (fun _ => none) [] "dataset.x" "xyz"
      = ({ type := TypeClass.NullTypeClass },
         [("dataset.x", "unable to map type xyz to metadata schema")]) :=
  (type_mapper_total (fun _ => none) (fun _ => none) (fun _ => none) [] "dataset.x" "xyz").1
    (by decide) rfl

/-- A catalog entry whose columns mapping lists a column of index 2 before a
column of index 1. -/
def catOutOfOrder : CatalogNode :=
  { metadata_type := "table",
    columns := [("colb", { name := "colb", comment := "", type := "text", index := 2 }),
                ("cola", { name := "cola", comment := "", type := "text", index := 1 })] }

/-- C6 counterexample: the claim says column order follows the catalog-declared
position index, but `get_columns` keeps the catalog mapping's entry order and
never sorts: on an entry listing index 2 before index 1, the output indices
are 2 then 1, not in index order. -/
theorem column_order_counterexample :
    (get_columns catOutOfOrder).map (fun c => c.index) = [2, 1]
    ∧ ¬ List.Pairwise (fun a b => a ≤ b) ((get_columns catOutOfOrder).map (fun c => c.index)) := by
  refine ⟨rfl, ?_⟩
  intro h
  rw [show (get_columns catOutOfOrder).map (fun c => c.index) = [2, 1] from rfl] at h
  have h2 : (2 : Int) ≤ 1 := (List.pairwise_cons.mp h).1 1 (by simp)
  omega

theorem buildFields_fieldPath (pg sf rmod : String → Option TypeClass) (dbt_name : String) :
    ∀ (cols : List DBTColumn) (report : List (String × String)),
      ((buildFields pg sf rmod dbt_name cols report).1).map (fun f => f.fieldPath)
        = cols.map (fun c => c.name) := by
  intro cols
  induction cols with
  | nil => intro report; rfl
  | cons c rest ih => intro report; simp [buildFields, ih]

/-- C6 (amended): the order of columns equals the catalog mapping's entry
(insertion) order — names and carried indices positionally match the entries —
and the schema record's fields follow the node's columns order one to one; the
position index is carried but not used for sorting, so the order follows the
index only when the catalog entries are already listed in index order. -/
theorem column_order_follows_entry_order (cat_node : CatalogNode) (now : Int)
    (pg sf rmod : String → Option TypeClass) (report : List (String × String))
    (node : DBTNode) (platform : String) :
    (get_columns cat_node).map (fun c => c.name) = cat_node.columns.map (fun p => p.2.name)
    ∧ (get_columns cat_node).map (fun c => c.index) = cat_node.columns.map (fun p => p.2.index)
    ∧ (get_schema_metadata now pg sf rmod report node platform).1.fields.map
        (fun f => f.fieldPath) = node.columns.map (fun c => c.name) := by
  refine ⟨?_, ?_, ?_⟩
  · simp only [get_columns, List.map_map]
    rfl
  · simp only [get_columns, List.map_map]
    rfl
  · simp only [get_schema_metadata]
    exact buildFields_fieldPath pg sf rmod node.dbt_name node.columns report

/-- C9: every audit timestamp written by the lineage builder and the schema
builder is the truncated wall-clock seconds times 1000 — hence a multiple of
1000 milliseconds — and all entries of one build call share that single value
(in particular created equals lastModified). -/
theorem timestamp_granularity (now : Int) (urns : List String)
    (pg sf rmod : String → Option TypeClass) (report : List (String × String))
    (node : DBTNode) (platform : String) :
    (get_upstream_lineage now urns).upstreams.map (fun uc => uc.auditStamp.time)
      = List.replicate urns.length (now * 1000)
    ∧ (1000 : Int) ∣ now * 1000
    ∧ (get_schema_metadata now pg sf rmod report node platform).1.created.time = now * 1000
    ∧ (get_schema_metadata now pg sf rmod report node platform).1.lastModified.time
      = (get_schema_metadata now pg sf rmod report node platform).1.created.time := by
  refine ⟨?_, dvd_mul_left 1000 now, rfl, rfl⟩
  simp only [get_upstream_lineage, List.map_map]
  exact List.map_const' urns (now * 1000)

/-! Concrete fixtures used by witnesses. -/

/-- A concrete source entry (no materialized key, declared identifier). -/
def exSourceNode : ManifestNode :=
  { resource_type := "source", database := "db", schema := "public",
    original_file_path := "models/src.yml", name := "raw_events",
    identifier := some "raw_events_physical", materialized := none, depends_on_nodes := [] }

/-- A concrete model entry depending on the source entry. -/
def exModelNode : ManifestNode :=
  { resource_type := "model", database := "db", schema := "public",
    original_file_path := "models/m.sql", name := "my_model",
    identifier := none, materialized := some "table",
    depends_on_nodes := ["source.proj.raw_events"] }

/-- A concrete model entry whose dependency key exists nowhere. -/
def exBadModelNode : ManifestNode :=
  { resource_type := "model", database := "db", schema := "public",
    original_file_path := "models/bad.sql", name := "bad_model",
    identifier := none, materialized := some "table",
    depends_on_nodes := ["missing.key"] }

/-- A concrete non-ephemeral model entry with no catalog entry anywhere,
used with schema loading on. -/
def exNoCatModelNode : ManifestNode :=
  { resource_type := "model", database := "db", schema := "public",
    original_file_path := "models/nocat.sql", name := "nocat_model",
    identifier := none, materialized := some "table", depends_on_nodes := [] }

/-- A concrete catalog entry with one column. -/
def exCatalogEntry : CatalogNode :=
  { metadata_type := "BASE TABLE",
    columns := [("id", { name := "id", comment := "pk", type := "integer", index := 1 })] }

def exManifest : List (String × ManifestNode) :=
  [("model.proj.my_model", exModelNode), ("source.proj.raw_events", exSourceNode)]

def exCatalog : List (String × CatalogNode) :=
  [("model.proj.my_model", exCatalogEntry), ("source.proj.raw_events", exCatalogEntry)]

/-- The node extracted from `exModelNode` with schema-loading off. -/
def exModelDBT : DBTNode :=
  { dbt_name := "model.proj.my_model", database := "db", schema := "public",
    dbt_file_path := "models/m.sql", node_type := "model", materialization := "table",
    name := "my_model", columns := [],
    upstream_urns := [get_urn_from_dbtNode "db" "public" "raw_events_physical" "postgres" "PROD"],
    datahub_urn := get_urn_from_dbtNode "db" "public" "my_model" "postgres" "PROD" }

/-- The node extracted from `exSourceNode` with schema-loading on. -/
def exSourceDBTfull : DBTNode :=
  { dbt_name := "source.proj.raw_events", database := "db", schema := "public",
    dbt_file_path := "models/src.yml", node_type := "source",
    materialization := "BASE TABLE", name := "raw_events",
    columns := get_columns exCatalogEntry, upstream_urns := [],
    datahub_urn := get_urn_from_dbtNode "db" "public" "raw_events" "postgres" "PROD" }

/-- The node extracted from `exSourceNode` with schema-loading off. -/
def exSourceDBTnoSchema : DBTNode :=
  { dbt_name := "source.proj.raw_events", database := "db", schema := "public",
    dbt_file_path := "models/src.yml", node_type := "source",
    materialization := "BASE TABLE", name := "raw_events_physical",
    columns := [], upstream_urns := [],
    datahub_urn := get_urn_from_dbtNode "db" "public" "raw_events_physical" "postgres" "PROD" }

/-- The work unit emitted for `exSourceDBTfull` with schema loading on. -/
def exWorkUnitSchema : MetadataWorkUnit :=
  (emitNode true "dbt" 0 (fun _ => none) (fun _ => none) (fun _ => none) [] exSourceDBTfull).1

/-- The work unit emitted for `exSourceDBTnoSchema` with schema loading off. -/
def exWorkUnitNoSchema : MetadataWorkUnit :=
  (emitNode false "dbt" 7 (fun _ => none) (fun _ => none) (fun _ => none) []
    exSourceDBTnoSchema).1

/-- C2 witness: the concrete model entry gets its configured materialization and
its dependency-resolved upstreams; the source branch is instantiated vacuously
in the same application. -/
theorem model_source_classification_witness :
    (∀ m, exModelNode.materialized = some m →
        exModelDBT.materialization = m
        ∧ get_upstreams exModelNode.depends_on_nodes exManifest false "postgres" "PROD"
            = Except.ok exModelDBT.upstream_urns)
    ∧ (exModelNode.materialized = none →
        exModelDBT.upstream_urns = []
        ∧ ∃ c, lookupD exCatalog "model.proj.my_model" = some c
            ∧ exModelDBT.materialization = c.metadata_type) :=
  model_source_classification exManifest exCatalog false "postgres" "PROD" (fun _ => true)
    "model.proj.my_model" exModelNode exModelDBT rfl rfl

/-- C3 witness: a concrete model entry with a dangling dependency key, and a
concrete non-ephemeral model entry with schema loading on but no catalog entry,
each make the whole load fail and the driver return no records. -/
theorem missing_key_aborts_extraction_witness :
    ((∃ e, loadManifestAndCatalog [("model.proj.bad_model", exBadModelNode)] [] [] []
        false "postgres" "PROD" (fun _ => true) = Except.error e)
     ∧ ∀ r, get_workunits [("model.proj.bad_model", exBadModelNode)] [] [] []
        false "postgres" "PROD" (fun _ => true) "dbt" 0 (fun _ => none) (fun _ => none)
        (fun _ => none) ≠ Except.ok r)
    ∧ ((∃ e, loadManifestAndCatalog [("model.proj.nocat_model", exNoCatModelNode)] [] [] []
        true "postgres" "PROD" (fun _ => true) = Except.error e)
     ∧ ∀ r, get_workunits [("model.proj.nocat_model", exNoCatModelNode)] [] [] []
        true "postgres" "PROD" (fun _ => true) "dbt" 0 (fun _ => none) (fun _ => none)
        (fun _ => none) ≠ Except.ok r) :=
  ⟨missing_key_aborts_extraction [("model.proj.bad_model", exBadModelNode)] [] [] []
    false "postgres" "PROD" (fun _ => true) "dbt" 0 (fun _ => none) (fun _ => none)
    (fun _ => none) "model.proj.bad_model" exBadModelNode
    (by simp [dictMerge]) rfl
    (Or.inl ⟨"table", "missing.key", rfl, by simp [exBadModelNode], rfl⟩),
   missing_key_aborts_extraction [("model.proj.nocat_model", exNoCatModelNode)] [] [] []
    true "postgres" "PROD" (fun _ => true) "dbt" 0 (fun _ => none) (fun _ => none)
    (fun _ => none) "model.proj.nocat_model" exNoCatModelNode
    (by simp [dictMerge]) rfl
    (Or.inr (Or.inr ⟨"table", rfl, by decide, rfl, rfl⟩))⟩

/-- C5 witness: with schema loading on, the concrete source node's columns come
from its catalog entry and its emitted work unit carries a schema aspect. -/
theorem schema_gating_witness :
    ((exSourceDBTfull.materialization ≠ "ephemeral" ∧ true = true) →
        ∃ c, lookupD exCatalog "source.proj.raw_events" = some c
          ∧ exSourceDBTfull.columns = get_columns c)
    ∧ ((exSourceDBTfull.materialization = "ephemeral" ∨ true = false) →
        exSourceDBTfull.columns = [])
    ∧ ((∃ sm, Aspect.schemaAspect sm ∈ exWorkUnitSchema.snapshot.aspects) ↔ true = true) :=
  schema_gating exManifest exCatalog true "postgres" "PROD" (fun _ => true)
    "source.proj.raw_events" exSourceNode exSourceDBTfull
    [("source.proj.raw_events", exSourceNode)] [] [("source.proj.raw_events", exCatalogEntry)]
    [] true "postgres" "PROD" (fun _ => true) "dbt" 0 (fun _ => none) (fun _ => none)
    (fun _ => none) [exWorkUnitSchema] [] exWorkUnitSchema rfl rfl
    (List.mem_singleton.mpr rfl)

/-- C7 witness: a concrete two-element upstream list maps to two entries in
order, and the concrete emitted work unit carries a lineage aspect. -/
theorem lineage_builder_spec_witness :
    (get_upstream_lineage 7 ["a", "b"]).upstreams.map (fun uc => uc.dataset) = ["a", "b"]
    ∧ (∀ uc ∈ (get_upstream_lineage 7 ["a", "b"]).upstreams,
        uc.auditStamp.actor = "urn:li:corpuser:dbt_executor"
        ∧ uc.type = DatasetLineageType.TRANSFORMED)
    ∧ get_upstream_lineage 7 [] = { upstreams := [] }
    ∧ ∃ ul, Aspect.lineage ul ∈ exWorkUnitNoSchema.snapshot.aspects :=
  lineage_builder_spec 7 ["a", "b"] [("source.proj.raw_events", exSourceNode)] []
    [("source.proj.raw_events", exCatalogEntry)] [] false "postgres" "PROD" (fun _ => true)
    "dbt" 7 (fun _ => none) (fun _ => none) (fun _ => none)
    [exWorkUnitNoSchema] [] exWorkUnitNoSchema rfl (List.mem_singleton.mpr rfl)

/-- C8 witness: with schema-loading off the concrete source node's name is its
declared identifier, and upstream resolution coincides with the reference rule
on a concrete dependency list. -/
theorem name_selection_rule_witness :
    exSourceDBTnoSchema.name = claimNameRule exSourceNode.identifier exSourceNode.name false
    ∧ get_upstreams ["source.proj.raw_events"] exManifest false "postgres" "PROD"
      = upstreamsRef ["source.proj.raw_events"] exManifest false "postgres" "PROD" :=
  name_selection_rule exManifest exCatalog false "postgres" "PROD" (fun _ => true)
    "source.proj.raw_events" exSourceNode exSourceDBTnoSchema ["source.proj.raw_events"] rfl

end DbtIngest
